import Mathlib

/-!
Shallow embedding of the sales-analytics core (data cleaning, business
classification, category analytics, brand matching, date parsing and
location analytics) as executable Lean definitions, together with theorems
checking the specified properties against them.

A pandas DataFrame is modelled as a list of records; a missing value (NaN)
in a cell is an `Option` that is `none`; a pandas dict is an association
list whose lookup returns the first matching key.  Monetary amounts are
modelled as rationals.
-/

namespace SalesAnalytics

attribute [local semireducible] Rat.add Rat.sub Rat.mul Rat.inv

/-! ### String helpers mirroring Python string operations -/

/-- Lowercase a string character by character, as Python lower does for
ASCII input. -/
def pyLower (s : String) : String := ⟨s.data.map Char.toLower⟩

/-- Substring occurrence test on character lists: `listInfix needle hay`
is true when `needle` occurs contiguously inside `hay`, like the Python
`in` operator on strings. -/
def listInfix (needle : List Char) : List Char → Bool
  | [] => needle.isEmpty
  | c :: rest => needle.isPrefixOf (c :: rest) || listInfix needle rest

/-- Python `needle in hay` on strings. -/
def pyContains (hay needle : String) : Bool := listInfix needle.data hay.data

/-- Strip whitespace from both ends of a character list. -/
def stripList (l : List Char) : List Char :=
  ((l.dropWhile Char.isWhitespace).reverse.dropWhile Char.isWhitespace).reverse

/-- Python str.strip: remove leading and trailing whitespace. -/
def pyStrip (s : String) : String := ⟨stripList s.data⟩

/-- Split a character list on a separator character; mirrors the Python
str.split with a one-character separator. -/
def splitOnCharAux (c : Char) : List Char → List Char → List (List Char)
  | [], acc => [acc.reverse]
  | d :: rest, acc =>
      if d == c then acc.reverse :: splitOnCharAux c rest []
      else splitOnCharAux c rest (d :: acc)

/-- Python s.split(c) for a one-character separator c. -/
def pySplit (s : String) (c : Char) : List String :=
  (splitOnCharAux c s.data []).map (fun l => ⟨l⟩)

/-- Parse a nonempty all-digit character list as a natural number. -/
def digitsToNat : List Char → Option ℕ
  | [] => none
  | l =>
      if l.all Char.isDigit then
        some (l.foldl (fun acc c => acc * 10 + (c.toNat - 48)) 0)
      else none

/-- First-occurrence deduplication with an accumulator of already seen
keys; `uniqueFirst` below mirrors the pandas Series.unique, which keeps
the first occurrence of each value in order. -/
def uniqueAux (seen : List String) : List String → List String
  | [] => []
  | x :: xs =>
      if seen.contains x then uniqueAux seen xs
      else x :: uniqueAux (x :: seen) xs

/-- The pandas Series.unique: distinct values in first-occurrence order. -/
def uniqueFirst (l : List String) : List String := uniqueAux [] l

/-- Association-list lookup returning the first value stored under the
key; models lookup in a Python dict built by insertions. -/
def alookup {β : Type} : List (String × β) → String → Option β
  | [], _ => none
  | (k, v) :: rest, key => if k = key then some v else alookup rest key

/-- Number of distinct values of a list of strings; models the pandas
Series.nunique over a column without missing values. -/
def nunique (l : List String) : ℕ := l.toFinset.card

/-! ### Configuration data from config.py -/

/-- Keyword table from config.BUSINESS_KEYWORDS, in declaration order. -/
def BUSINESS_KEYWORDS : List (String × List String) :=
  [ ("Retail", ["retail", "store", "shop", "market", "outlet", "merchant"])
  , ("Healthcare", ["health", "medical", "hospital", "clinic", "pharmacy", "doctor", "nurse"])
  , ("Manufacturing", ["manufacturing", "factory", "production", "industrial", "manufacturer"])
  , ("Technology", ["tech", "software", "IT", "computer", "digital", "technology", "tech company"])
  , ("Finance", ["bank", "financial", "finance", "investment", "accounting", "insurance"])
  , ("Education", ["school", "university", "education", "college", "academy", "learning"])
  , ("Real Estate", ["real estate", "property", "realty", "housing", "construction"])
  , ("Hospitality", ["hotel", "restaurant", "hospitality", "catering", "tourism"])
  , ("Transportation", ["transport", "logistics", "shipping", "delivery", "freight"])
  , ("Construction", ["construction", "contractor", "building", "architect"])
  , ("Food & Beverage", ["food", "restaurant", "cafe", "beverage", "catering"])
  , ("Professional Services", ["consulting", "legal", "law", "advisory", "services"]) ]

/-- Date format list from config.DATE_FORMATS, in order. -/
def DATE_FORMATS : List String :=
  ["%Y-%m-%d", "%m/%d/%Y", "%d/%m/%Y", "%Y-%m-%d %H:%M:%S", "%m/%d/%Y %H:%M:%S"]

/-! ### data_processor.clean_sales_data -/

/-- A raw sales row before cleaning.  Each field is an `Option`: `none`
models a pandas missing value.  For sales_amount, `none` also models a
value that pd.to_numeric with coercion turns into NaN, so that the
dropna after coercion removes exactly the rows whose amount is `none`. -/
structure RawRow where
  customer_id : Option String
  product_id : Option String
  product_category : Option String
  sales_amount : Option ℚ
deriving DecidableEq

/-- A cleaned sales row: all critical fields present. -/
structure CleanRow where
  customer_id : String
  product_id : String
  product_category : String
  sales_amount : ℚ
deriving DecidableEq

/-- Python astype(str) on a cell: a missing value prints as the literal
string nan, any other string is unchanged. -/
def strOfCell : Option String → String
  | none => "nan"
  | some s => s

/-- data_processor.clean_sales_data: drop rows missing customer_id,
product_id or sales_amount, keep only positive amounts, stringify and
strip product_category and drop rows whose product_category stringifies
to the literal nan, then strip customer_id and product_id. -/
def clean_sales_data (rows : List RawRow) : List CleanRow :=
  rows.filterMap fun r =>
    match r.customer_id, r.product_id, r.sales_amount with
    | some cid, some pid, some amt =>
        if 0 < amt then
          let pc := pyStrip (strOfCell r.product_category)
          if pc = "nan" then none
          else some ⟨pyStrip cid, pyStrip pid, pc, amt⟩
        else none
    | _, _, _ => none

/-! ### data_processor.merge_business_categories -/

/-- A sales row as consumed by the merge step: critical fields present. -/
structure SalesRow where
  customer_id : String
  product_id : String
  product_category : String
  sales_amount : ℚ
deriving DecidableEq

/-- A business mapping: customer_id to (category, optional sub-category),
as produced by load_business_mapping or create_business_mapping. -/
abbrev BusinessMapping := List (String × String × Option String)

/-- A sales row enriched with the two merged business columns. -/
structure EnrichedRow where
  customer_id : String
  product_id : String
  product_category : String
  sales_amount : ℚ
  business_category : String
  business_sub_category : String
deriving DecidableEq

/-- data_processor.merge_business_categories: per-row dict lookup adding
business_category (default Unknown on a miss) and business_sub_category
(Unspecified whenever the stored sub-category is none, including on a
miss). -/
def merge_business_categories (df : List SalesRow) (m : BusinessMapping) :
    List EnrichedRow :=
  df.map fun r =>
    let pair := (alookup m r.customer_id).getD ("Unknown", none)
    { customer_id := r.customer_id
      product_id := r.product_id
      product_category := r.product_category
      sales_amount := r.sales_amount
      business_category := pair.1
      business_sub_category := pair.2.getD "Unspecified" }

/-- Projection of an enriched row back to its underlying sales row. -/
def EnrichedRow.toSalesRow (r : EnrichedRow) : SalesRow :=
  ⟨r.customer_id, r.product_id, r.product_category, r.sales_amount⟩

/-! ### business_classifier -/

/-- business_classifier.classify_by_keywords: lowercase the customer name
and return the first category of BUSINESS_KEYWORDS one of whose keywords,
lowercased, occurs in it; none when no keyword matches. -/
def classify_by_keywords (customer_name : String) : Option String :=
  BUSINESS_KEYWORDS.findSome? fun p =>
    if p.2.any (fun kw => pyContains (pyLower customer_name) (pyLower kw)) then
      some p.1
    else none

/-- One pass of create_business_mapping filling every customer id absent
from the mapping with the value given by f. -/
def fillMissing (f : String → String × Option String)
    (customer_ids : List String) (m : BusinessMapping) : BusinessMapping :=
  customer_ids.foldl
    (fun acc cid =>
      if (alookup acc cid).isSome then acc else acc ++ [(cid, f cid)])
    m

/-- business_classifier.create_business_mapping: start from the loaded
file mapping when one is supplied, fill customers not yet covered by
keyword classification (default Other) when use_keywords is set, then
give every still uncovered customer the pair (Other, none). -/
def create_business_mapping (customer_ids : List String)
    (mapping_file : Option BusinessMapping) (use_keywords : Bool) :
    BusinessMapping :=
  let m0 := mapping_file.getD []
  let m1 :=
    if use_keywords then
      fillMissing (fun cid => ((classify_by_keywords cid).getD "Other", none))
        customer_ids m0
    else m0
  fillMissing (fun _ => ("Other", none)) customer_ids m1

/-! ### analytics.calculate_category_matrix

The pivot table is modelled as an association list from business_category
to an association list from product_category to the summed sales_amount.
The pandas pivot sorts its labels alphabetically; here labels are kept in
first-occurrence order, which changes only the display order of the rows
and columns, never which cells exist nor their values, and the properties
below are stated through lookup by label. -/

/-- Sum of sales_amount over the rows of one (business_category,
product_category) cell. -/
def cellSum (rows : List EnrichedRow) (bc pc : String) : ℚ :=
  ((rows.filter fun r =>
      r.business_category == bc && r.product_category == pc).map
    (·.sales_amount)).sum

/-- analytics.calculate_category_matrix: dense pivot of summed
sales_amount over business_category times product_category, a cell for
every observed label pair, zero-filled. -/
def calculate_category_matrix (rows : List EnrichedRow) :
    List (String × List (String × ℚ)) :=
  let bcs := uniqueFirst (rows.map (·.business_category))
  let pcs := uniqueFirst (rows.map (·.product_category))
  bcs.map fun bc => (bc, pcs.map fun pc => (pc, cellSum rows bc pc))

/-- Look one cell up in the pivot by its two labels. -/
def matrixCell (m : List (String × List (String × ℚ))) (bc pc : String) :
    Option ℚ :=
  (alookup m bc).bind fun row => alookup row pc

/-! ### analytics.identify_opportunities -/

/-- One output row of identify_opportunities. -/
structure OppRow where
  business_category : String
  product_categories_bought : ℕ
  total_product_categories : ℕ
  opportunity_score : ℚ
deriving DecidableEq

/-- Distinct product categories bought by one business category. -/
def boughtCount (rows : List EnrichedRow) (bc : String) : ℕ :=
  nunique ((rows.filter fun r => r.business_category == bc).map
    (·.product_category))

/-- Distinct product categories in the whole table. -/
def totalCount (rows : List EnrichedRow) : ℕ :=
  nunique (rows.map (·.product_category))

/-- The row analytics.identify_opportunities builds for one business
category: the number of distinct product categories it buys, the number
available in the whole table, and the score (total - bought) / total.
The pandas groupby sorts its group keys; first-occurrence key order is
kept here, which can only affect the relative order of output rows with
equal scores, a property no claim mentions. -/
def mkOppRow (rows : List EnrichedRow) (bc : String) : OppRow :=
  { business_category := bc
    product_categories_bought := boughtCount rows bc
    total_product_categories := totalCount rows
    opportunity_score :=
      ((totalCount rows : ℚ) - (boughtCount rows bc : ℚ))
        / (totalCount rows : ℚ) }

/-- The full identify_opportunities: one row per distinct business
category, sorted descending by opportunity score. -/
def identify_opportunities (rows : List EnrichedRow) : List OppRow :=
  ((uniqueFirst (rows.map (·.business_category))).map
      (mkOppRow rows)).insertionSort
    fun a b => b.opportunity_score ≤ a.opportunity_score

/-! ### brand_matching.find_businesses_for_brand

Only the columns the verified properties mention are modelled in the
result rows; the presentation columns (recommended product names, the
location string, the comma-joined category lists) are string formatting
over the same data and are omitted.  Column presence of state and
location is table-level in pandas, hence the two flags. -/

/-- A row of the sales table consumed by brand matching. -/
structure BRow where
  customer_id : String
  product_category : String
  sales_amount : ℚ
  business_category : String
  state : Option String
  location : Option String
deriving DecidableEq

/-- A sales table for brand matching: its rows plus which of the two
location columns exist. -/
structure BTable where
  rows : List BRow
  hasState : Bool
  hasLocation : Bool
deriving DecidableEq

/-- A row of the brand catalog; only product_category is consumed by the
scoring logic. -/
structure BrandProduct where
  product_category : String
deriving DecidableEq

/-- A scored match row of find_businesses_for_brand. -/
structure MatchRow where
  customer_id : String
  business_category : String
  category_overlap : ℕ
  match_score : ℚ
  total_revenue : ℚ
  product_diversity : ℕ
  opportunity_score : ℕ
deriving DecidableEq

/-- Case-insensitive containment test used by the pandas str.contains
filters with case=False and na=False: a missing value never matches.
The pattern is treated as a plain substring, which coincides with the
pandas regex containment for patterns free of regex metacharacters. -/
def optContainsCI (v : Option String) (pat : String) : Bool :=
  match v with
  | none => false
  | some s => pyContains (pyLower s) (pyLower pat)

/-- The two filter steps of find_businesses_for_brand: keep the rows of
the requested business categories when a nonempty list is given, then
apply the location filter on the state column when it exists, else on
the location column when it exists.  An empty filter list and an empty
filter string are falsy in Python and disable the respective filter. -/
def brandFilteredRows (t : BTable) (business_categories : Option (List String))
    (location_filter : Option String) : List BRow :=
  let f1 :=
    match business_categories with
    | some cats =>
        if cats.isEmpty then t.rows
        else t.rows.filter fun r => cats.contains r.business_category
    | none => t.rows
  match location_filter with
  | none => f1
  | some pat =>
      if pat = "" then f1
      else if t.hasState then f1.filter fun r => optContainsCI r.state pat
      else if t.hasLocation then f1.filter fun r => optContainsCI r.location pat
      else f1

/-- The set of distinct product categories bought by one customer within
a row list. -/
def customerCategorySet (rows : List BRow) (cid : String) : Finset String :=
  ((rows.filter fun r => r.customer_id == cid).map (·.product_category)).toFinset

/-- The distinct product categories of the brand catalog, in
first-occurrence order. -/
def brandCategories (brand : List BrandProduct) : List String :=
  uniqueFirst (brand.map (·.product_category))

/-- The match record find_businesses_for_brand builds for one customer
of the filtered table. -/
def mkMatchRow (fr : List BRow) (brandCats : List String) (cid : String) :
    MatchRow :=
  let custData := fr.filter fun r => r.customer_id == cid
  let custCats := customerCategorySet fr cid
  let brandSet := brandCats.toFinset
  let overlap := (custCats ∩ brandSet).card
  { customer_id := cid
    business_category := ((custData.head?).map (·.business_category)).getD ""
    category_overlap := overlap
    match_score :=
      if 0 < custCats.card then
        (overlap : ℚ) / (max custCats.card brandSet.card : ℚ)
      else 0
    total_revenue := (custData.map (·.sales_amount)).sum
    product_diversity := custCats.card
    opportunity_score :=
      if 0 < overlap then custCats.card else custCats.card + 10 }

/-- brand_matching.find_businesses_for_brand: score every distinct
customer of the filtered table, drop the rows whose match_score is below
min_match_score, and sort ascending by opportunity_score. -/
def find_businesses_for_brand (t : BTable) (brand : List BrandProduct)
    (business_categories : Option (List String))
    (location_filter : Option String) (min_match_score : ℚ) : List MatchRow :=
  let fr := brandFilteredRows t business_categories location_filter
  let scored :=
    (uniqueFirst (fr.map (·.customer_id))).map
      (mkMatchRow fr (brandCategories brand))
  (scored.filter fun m => min_match_score ≤ m.match_score).insertionSort
    fun a b => a.opportunity_score ≤ b.opportunity_score

/-! ### data_processor.parse_dates

The transaction_date column starts as a column of strings.  Each loop
iteration of parse_dates reassigns the whole column to the result of
pd.to_datetime with one fixed format and coercion of failures to missing
values, so after the first iteration the column holds dates and missing
values, not the original strings; pd.to_datetime returns a datetime
column unchanged.  The column state below records which of the two
shapes the column currently has. -/

/-- A parsed date-time value. -/
structure DateVal where
  year : ℕ
  month : ℕ
  day : ℕ
  hour : ℕ
  minute : ℕ
  second : ℕ
deriving DecidableEq

/-- Days of each month, February covering leap years, as the strptime
validation does. -/
def daysInMonth (year month : ℕ) : ℕ :=
  if month = 2 then
    if year % 4 = 0 && (year % 100 ≠ 0 || year % 400 = 0) then 29 else 28
  else if month = 4 || month = 6 || month = 9 || month = 11 then 30
  else 31

/-- Build a date from three numeric fields, validating ranges as
strptime does. -/
def mkDate (y m d : ℕ) : Option DateVal :=
  if 1 ≤ m && m ≤ 12 && 1 ≤ d && d ≤ daysInMonth y m then
    some ⟨y, m, d, 0, 0, 0⟩
  else none

/-- Parse one date according to the three-field date pattern given by
the order of the year, month and day pieces around the separator. -/
def parseThree (sep : Char) (pick : ℕ → ℕ → ℕ → ℕ × ℕ × ℕ) (s : String) :
    Option DateVal :=
  match (pySplit s sep).map (fun part => digitsToNat part.data) with
  | [some a, some b, some c] =>
      let t := pick a b c
      mkDate t.1 t.2.1 t.2.2
  | _ => none

/-- Attach a time of day parsed from an hh:mm:ss piece. -/
def withTime (d : Option DateVal) (timePart : String) : Option DateVal :=
  match (pySplit timePart ':').map (fun part => digitsToNat part.data) with
  | [some h, some mi, some sec] =>
      if h ≤ 23 && mi ≤ 59 && sec ≤ 59 then
        d.map fun v => { v with hour := h, minute := mi, second := sec }
      else none
  | _ => none

/-- Split a date-time string into its date piece and time piece at the
single blank and parse both. -/
def parseDateTime (sep : Char) (pick : ℕ → ℕ → ℕ → ℕ × ℕ × ℕ) (s : String) :
    Option DateVal :=
  match pySplit s ' ' with
  | [datePart, timePart] => withTime (parseThree sep pick datePart) timePart
  | _ => none

/-- strptime restricted to the five formats of DATE_FORMATS; any other
format string parses nothing. -/
def strptime (fmt : String) (s : String) : Option DateVal :=
  if fmt = "%Y-%m-%d" then parseThree '-' (fun a b c => (a, b, c)) s
  else if fmt = "%m/%d/%Y" then parseThree '/' (fun a b c => (c, a, b)) s
  else if fmt = "%d/%m/%Y" then parseThree '/' (fun a b c => (c, b, a)) s
  else if fmt = "%Y-%m-%d %H:%M:%S" then
    parseDateTime '-' (fun a b c => (a, b, c)) s
  else if fmt = "%m/%d/%Y %H:%M:%S" then
    parseDateTime '/' (fun a b c => (c, a, b)) s
  else none

/-- The state of the transaction_date column: still the original strings,
or already coerced to dates and missing values. -/
inductive ColumnState where
  | strs (vs : List String)
  | dates (ds : List (Option DateVal))
deriving DecidableEq

/-- pd.to_datetime with a fixed format and coercion: a string column is
parsed element by element, failures becoming missing; a column already
of datetime type is returned unchanged. -/
def to_datetime_format (fmt : String) (c : ColumnState) : ColumnState :=
  match c with
  | .strs vs => .dates (vs.map (strptime fmt))
  | .dates ds => .dates ds

/-- Modelled from the spec: the permissive auto-detecting parse of
pd.to_datetime without a format argument, an external pandas behavior;
here it tries the known formats in order per value.  Its exact behavior
never reaches the final result, because parse_dates only applies it to a
column that previous format attempts have already coerced to the
datetime type, which pd.to_datetime returns unchanged. -/
def to_datetime_auto (c : ColumnState) : ColumnState :=
  match c with
  | .strs vs =>
      .dates (vs.map fun v => DATE_FORMATS.findSome? fun fmt => strptime fmt v)
  | .dates ds => .dates ds

/-- Count of non-missing values of the column. -/
def notnaCount (c : ColumnState) : ℕ :=
  match c with
  | .strs vs => vs.length
  | .dates ds => ds.countP (·.isSome)

/-- The format loop of parse_dates: coerce the current column with each
format in turn, stopping after the first attempt that leaves at least
one non-missing value. -/
def parseDatesLoop : List String → ColumnState → ColumnState
  | [], c => c
  | fmt :: rest, c =>
      let c1 := to_datetime_format fmt c
      if 0 < notnaCount c1 then c1 else parseDatesLoop rest c1

/-- data_processor.parse_dates on the transaction_date column: run the
format loop over DATE_FORMATS, then, when every value is missing, apply
the auto-detecting fallback to the current column. -/
def parse_dates (col : List String) : List (Option DateVal) :=
  let c := parseDatesLoop DATE_FORMATS (.strs col)
  let c1 := if notnaCount c = 0 then to_datetime_auto c else c
  match c1 with
  | .dates ds => ds
  | .strs vs => vs.map fun _ => none

/-! ### location_analytics.find_similar_businesses_by_location -/

/-- A row of the sales table consumed by the location search. -/
structure LRow where
  customer_id : String
  business_category : String
  product_category : String
  sales_amount : ℚ
  location : Option String
  city : Option String
  state : Option String
deriving DecidableEq

/-- A sales table for the location search: rows plus which location
columns exist. -/
structure LTable where
  rows : List LRow
  hasLocation : Bool
  hasCity : Bool
  hasState : Bool
  hasBusinessCategory : Bool
deriving DecidableEq

/-- One recommendation row of find_similar_businesses_by_location. -/
structure LocRec where
  customer_id : String
  location : String
  business_category : Option String
  current_product_categories : ℕ
  total_revenue : ℚ
  opportunity_score : ℕ
deriving DecidableEq

/-- Python str() of a possibly missing cell. -/
def strOfOpt (v : Option String) : String := strOfCell v

/-- The per-customer location string the function precomputes: the first
location value of the customer when the location column exists, else the
first city and state joined by a comma, else the customer id itself. -/
def businessLocations (t : LTable) : List (String × String) :=
  let customers := uniqueFirst (t.rows.map (·.customer_id))
  if t.hasLocation then
    customers.map fun cid =>
      (cid,
        strOfOpt (((t.rows.filter fun r => r.customer_id == cid).head?).bind
          (·.location)))
  else if t.hasCity && t.hasState then
    customers.map fun cid =>
      let first := (t.rows.filter fun r => r.customer_id == cid).head?
      (cid,
        strOfOpt (first.bind (·.city)) ++ ", " ++ strOfOpt (first.bind (·.state)))
  else customers.map fun cid => (cid, cid)

/-- The recommendation record built for one nearby customer. -/
def mkLocRec (t : LTable) (ccat : Option String) (cid : String) : LocRec :=
  let cd := t.rows.filter fun r => r.customer_id == cid
  { customer_id := cid
    location := (alookup (businessLocations t) cid).getD "Unknown"
    business_category := ccat
    current_product_categories := nunique (cd.map (·.product_category))
    total_revenue := (cd.map (·.sales_amount)).sum
    opportunity_score := nunique (cd.map (·.product_category)) }

/-- location_analytics.find_similar_businesses_by_location: parse the
requested location into city and state, select the customers whose
location string contains the state token when one is present, else the
city token, else the whole location string, case-insensitively; among
them recommend those of the requested business category that do not buy
the requested product category, falling back, when that set is empty, to
any nearby customer not buying it; sort ascending by opportunity score
and return at most n rows.  The radius argument radius_miles is accepted
and never read, exactly as in the source.  A table without location,
city and state columns is a ValueError, modelled as the error case. -/
def find_similar_businesses_by_location (t : LTable)
    (business_category product_category location : String)
    (radius_miles : ℕ) (n_recommendations : ℕ) :
    Except String (List LocRec) :=
  if !t.hasLocation && !t.hasCity && !t.hasState then
    .error "DataFrame must contain location information"
  else
    let parts := pySplit location ','
    let city := if parts.length = 2 then pyStrip (parts.getD 0 "") else pyStrip location
    let state : Option String :=
      if parts.length = 2 then some (pyStrip (parts.getD 1 "")) else none
    let locs := businessLocations t
    let nearby := locs.filterMap fun p =>
      let locStr := pyLower p.2
      let keep :=
        match state with
        | some st =>
            if st ≠ "" then pyContains locStr (pyLower st)
            else if city ≠ "" then pyContains locStr (pyLower city)
            else pyContains locStr (pyLower location)
        | none =>
            if city ≠ "" then pyContains locStr (pyLower city)
            else pyContains locStr (pyLower location)
      if keep then some p.1 else none
    let withCat := nearby.map fun cid =>
      let cd := t.rows.filter fun r => r.customer_id == cid
      let ccat : Option String :=
        if t.hasBusinessCategory then cd.head?.map (·.business_category)
        else none
      let buys := cd.any fun r => r.product_category == product_category
      (cid, ccat, buys)
    let primary := withCat.filterMap fun p =>
      if p.2.1 == some business_category && !p.2.2 then
        some (mkLocRec t p.2.1 p.1)
      else none
    let recs :=
      if primary.isEmpty then
        withCat.filterMap fun p =>
          if !p.2.2 then some (mkLocRec t p.2.1 p.1) else none
      else primary
    .ok ((recs.insertionSort fun a b =>
      a.opportunity_score ≤ b.opportunity_score).take n_recommendations)

/-! ### Helper lemmas -/

theorem mem_of_mem_uniqueAux {seen l : List String} {x : String}
    (h : x ∈ uniqueAux seen l) : x ∈ l := by
  induction l generalizing seen with
  | nil => simpa [uniqueAux] using h
  | cons hd tl ih =>
      rw [uniqueAux] at h
      split at h
      · exact List.mem_cons_of_mem hd (ih h)
      · rcases List.mem_cons.mp h with h1 | h1
        · exact h1 ▸ List.mem_cons_self hd tl
        · exact List.mem_cons_of_mem hd (ih h1)

theorem mem_uniqueAux_of_mem {seen l : List String} {x : String}
    (hx : x ∈ l) (hs : seen.contains x = false) : x ∈ uniqueAux seen l := by
  induction l generalizing seen with
  | nil => cases hx
  | cons hd tl ih =>
      rw [uniqueAux]
      rcases List.mem_cons.mp hx with h1 | h1
      · subst h1
        split
        · next hc => rw [hs] at hc; cases hc
        · exact List.mem_cons_self x _
      · split
        · exact ih h1 hs
        · by_cases hxhd : x = hd
          · exact hxhd ▸ List.mem_cons_self hd _
          · refine List.mem_cons_of_mem hd (ih h1 ?_)
            simp only [List.contains_cons, Bool.or_eq_false_iff]
            exact ⟨by simp [hxhd], hs⟩

theorem mem_uniqueFirst {l : List String} {x : String} :
    x ∈ uniqueFirst l ↔ x ∈ l :=
  ⟨mem_of_mem_uniqueAux, fun h => mem_uniqueAux_of_mem h rfl⟩

theorem uniqueAux_avoids_and_nodup (seen l : List String) :
    (∀ x ∈ uniqueAux seen l, seen.contains x = false) ∧
      (uniqueAux seen l).Nodup := by
  induction l generalizing seen with
  | nil => simp [uniqueAux]
  | cons hd tl ih =>
      rw [uniqueAux]
      split
      · exact ih seen
      · next hc =>
        have hrec := ih (hd :: seen)
        refine ⟨?_, ?_⟩
        · intro x hx
          rcases List.mem_cons.mp hx with h1 | h1
          · subst h1; simpa using hc
          · have := hrec.1 x h1
            simp only [List.contains_cons] at this
            exact (Bool.or_eq_false_iff.mp this).2
        · refine List.nodup_cons.mpr ⟨?_, hrec.2⟩
          intro hmem
          have := hrec.1 hd hmem
          simp [List.contains_cons] at this

theorem nodup_uniqueFirst (l : List String) : (uniqueFirst l).Nodup :=
  (uniqueAux_avoids_and_nodup [] l).2

theorem alookup_mem {β : Type} {m : List (String × β)} {k : String} {v : β}
    (h : alookup m k = some v) : (k, v) ∈ m := by
  induction m with
  | nil => cases h
  | cons hd tl ih =>
      rcases hd with ⟨k0, v0⟩
      rw [alookup] at h
      split at h
      · next heq =>
        cases h
        exact heq ▸ List.mem_cons_self _ _
      · exact List.mem_cons_of_mem _ (ih h)

theorem alookup_append {β : Type} (m l : List (String × β)) (k : String) :
    alookup (m ++ l) k = ((alookup m k).rec (alookup l k) fun v => some v) := by
  induction m with
  | nil => simp [alookup]
  | cons hd tl ih =>
      rcases hd with ⟨k0, v0⟩
      rw [List.cons_append, alookup, alookup]
      split
      · rfl
      · exact ih

theorem isSome_alookup_append_left {β : Type} {m : List (String × β)}
    {k : String} (l : List (String × β)) (h : (alookup m k).isSome) :
    (alookup (m ++ l) k).isSome := by
  rw [alookup_append]
  cases hm : alookup m k with
  | none => rw [hm] at h; cases h
  | some v => rfl

theorem isSome_alookup_fillMissing (f : String → String × Option String)
    (cids : List String) {m : BusinessMapping} {cid : String}
    (h : (alookup m cid).isSome) :
    (alookup (fillMissing f cids m) cid).isSome := by
  induction cids generalizing m with
  | nil => exact h
  | cons hd tl ih =>
      rw [fillMissing] at *
      simp only [List.foldl_cons]
      split
      · exact ih h
      · exact ih (isSome_alookup_append_left _ h)

theorem alookup_fillMissing_self (f : String → String × Option String)
    {cids : List String} {cid : String} (hmem : cid ∈ cids)
    (m : BusinessMapping) :
    (alookup (fillMissing f cids m) cid).isSome := by
  induction cids generalizing m with
  | nil => cases hmem
  | cons hd tl ih =>
      rw [fillMissing]
      simp only [List.foldl_cons]
      rcases List.mem_cons.mp hmem with h1 | h1
      · subst h1
        split
        · next hsome => exact isSome_alookup_fillMissing f tl hsome
        · next hnone =>
          have hnone2 : alookup m cid = none := by
            cases hm : alookup m cid with
            | none => rfl
            | some v => rw [hm] at hnone; simp at hnone
          refine isSome_alookup_fillMissing f tl ?_
          rw [alookup_append, hnone2]
          simp [alookup]
      · split
        · exact ih h1 m
        · exact ih h1 _

theorem mem_fillMissing {f : String → String × Option String}
    {cids : List String} {m : BusinessMapping}
    {e : String × String × Option String}
    (h : e ∈ fillMissing f cids m) : e ∈ m ∨ ∃ cid, e = (cid, f cid) := by
  induction cids generalizing m with
  | nil => exact Or.inl h
  | cons hd tl ih =>
      rw [fillMissing] at h
      simp only [List.foldl_cons] at h
      rw [← fillMissing] at h
      split at h
      · exact ih h
      · rcases ih h with h1 | h1
        · rcases List.mem_append.mp h1 with h2 | h2
          · exact Or.inl h2
          · simp only [List.mem_singleton] at h2
            exact Or.inr ⟨hd, h2⟩
        · exact Or.inr h1

/-! ### Claim C1: cleaning invariant -/

/-- C1 counterexample: clean_sales_data keeps a row whose customer_id is
whitespace only, and its trimmed customer_id is the empty string, so not
every surviving row has a non-empty customer_id after trimming.  The
dropna of the source removes only missing values; a whitespace-only
string is not missing, survives the cleaning, and is stripped to the
empty string. -/
theorem clean_sales_data_nonempty_cex :
    ¬ (∀ r ∈ clean_sales_data
          [{ customer_id := some " ", product_id := some "P1",
             product_category := some "Gifts", sales_amount := some 5 }],
        r.customer_id ≠ "") := by
  decide

/-- C1 (amended): every row surviving clean_sales_data has
sales_amount strictly positive and a product_category that is never the
literal string nan; the identifier fields come from non-missing source
cells but can be empty after trimming. -/
theorem clean_sales_data_invariant (rows : List RawRow) (r : CleanRow)
    (h : r ∈ clean_sales_data rows) :
    0 < r.sales_amount ∧ r.product_category ≠ "nan" := by
  rw [clean_sales_data, List.mem_filterMap] at h
  obtain ⟨a, -, ha⟩ := h
  rcases a with ⟨cid, pid, pc, amt⟩
  cases cid with
  | none => cases ha
  | some cid =>
      cases pid with
      | none => cases ha
      | some pid =>
          cases amt with
          | none => cases ha
          | some amt =>
              simp only at ha
              split at ha
              · split at ha
                · cases ha
                · next hpos hnan =>
                  cases ha
                  exact ⟨hpos, hnan⟩
              · cases ha

/-- Witness for the amended C1 at a concrete table of one valid row. -/
theorem clean_sales_data_invariant_witness :
    0 < (⟨"C1", "P1", "Gifts", 5⟩ : CleanRow).sales_amount ∧
      (⟨"C1", "P1", "Gifts", 5⟩ : CleanRow).product_category ≠ "nan" :=
  clean_sales_data_invariant
    [{ customer_id := some "C1", product_id := some "P1",
       product_category := some "Gifts", sales_amount := some 5 }]
    ⟨"C1", "P1", "Gifts", 5⟩ (by decide)

/-! ### Claim C10: the merge step is a frame-preserving column addition -/

/-- C10: merge_business_categories keeps every pre-existing column value
of every row, in order and count, and only adds the two business
columns; projecting the enriched rows back to sales rows returns the
input table unchanged.  Enrichment is a per-row mapping, not a join, so
no mapping can duplicate or drop transaction rows. -/
theorem merge_business_categories_frame (df : List SalesRow)
    (m : BusinessMapping) :
    (merge_business_categories df m).map EnrichedRow.toSalesRow = df := by
  induction df with
  | nil => rfl
  | cons hd tl ih =>
      simpa [merge_business_categories, EnrichedRow.toSalesRow] using ih

/-! ### Claim C3: merge defaults -/

/-- The predicate of claim C3 for the stored sub-category being absent:
true on a mapping miss or when the stored pair has no sub-category. -/
def subAbsent (m : BusinessMapping) (cid : String) : Bool :=
  match alookup m cid with
  | none => true
  | some p => p.2.isNone

/-- C3 counterexample: with a mapping that stores the sub-category
Unspecified explicitly, the merged business_sub_category equals
Unspecified although the stored sub-category is present, so the claimed
equivalence (Unspecified exactly when the stored sub-category is absent)
fails. -/
theorem merge_sub_category_iff_cex :
    ¬ (∀ r ∈ merge_business_categories
          [{ customer_id := "C1", product_id := "P1",
             product_category := "Gifts", sales_amount := 5 }]
          [("C1", "Retail", some "Unspecified")],
        (r.business_sub_category = "Unspecified" ↔
          subAbsent [("C1", "Retail", some "Unspecified")] r.customer_id
            = true)) := by
  decide

/-- C3 (amended): after merge_business_categories the business_category
is never missing: a mapping miss yields Unknown with sub-category
Unspecified; a stored pair with absent sub-category yields its category
with sub-category Unspecified; a stored pair with a present sub-category
yields both stored strings, even when the stored sub-category happens to
be the literal Unspecified. -/
theorem merge_business_categories_defaults (df : List SalesRow)
    (m : BusinessMapping) (r : EnrichedRow)
    (h : r ∈ merge_business_categories df m) :
    (alookup m r.customer_id = none →
        r.business_category = "Unknown" ∧
          r.business_sub_category = "Unspecified") ∧
    (∀ c, alookup m r.customer_id = some (c, none) →
        r.business_category = c ∧ r.business_sub_category = "Unspecified") ∧
    (∀ c s, alookup m r.customer_id = some (c, some s) →
        r.business_category = c ∧ r.business_sub_category = s) := by
  rw [merge_business_categories, List.mem_map] at h
  obtain ⟨a, -, rfl⟩ := h
  refine ⟨fun hn => ?_, fun c hc => ?_, fun c s hcs => ?_⟩
  · simp only at hn ⊢
    rw [hn]
    exact ⟨rfl, rfl⟩
  · simp only at hc ⊢
    rw [hc]
    exact ⟨rfl, rfl⟩
  · simp only at hcs ⊢
    rw [hcs]
    exact ⟨rfl, rfl⟩

/-- Witness for the amended C3: a one-row table against a mapping that
misses its customer, instantiated at the enriched row the merge
produces. -/
theorem merge_business_categories_defaults_witness :
    (alookup ([("C1", "Retail", some "Boutique")] : BusinessMapping) "C2"
          = none →
        (⟨"C2", "P1", "Gifts", 5, "Unknown", "Unspecified"⟩ :
              EnrichedRow).business_category = "Unknown" ∧
          (⟨"C2", "P1", "Gifts", 5, "Unknown", "Unspecified"⟩ :
              EnrichedRow).business_sub_category = "Unspecified") ∧
    (∀ c,
        alookup ([("C1", "Retail", some "Boutique")] : BusinessMapping) "C2"
            = some (c, none) →
        (⟨"C2", "P1", "Gifts", 5, "Unknown", "Unspecified"⟩ :
              EnrichedRow).business_category = c ∧
          (⟨"C2", "P1", "Gifts", 5, "Unknown", "Unspecified"⟩ :
              EnrichedRow).business_sub_category = "Unspecified") ∧
    (∀ c s,
        alookup ([("C1", "Retail", some "Boutique")] : BusinessMapping) "C2"
            = some (c, some s) →
        (⟨"C2", "P1", "Gifts", 5, "Unknown", "Unspecified"⟩ :
              EnrichedRow).business_category = c ∧
          (⟨"C2", "P1", "Gifts", 5, "Unknown", "Unspecified"⟩ :
              EnrichedRow).business_sub_category = s) :=
  merge_business_categories_defaults
    [{ customer_id := "C2", product_id := "P1",
       product_category := "Gifts", sales_amount := 5 }]
    [("C1", "Retail", some "Boutique")]
    ⟨"C2", "P1", "Gifts", 5, "Unknown", "Unspecified"⟩ (by decide)

/-! ### Claim C2: totality of create_business_mapping and the Unknown
round trip -/

theorem classify_by_keywords_mem {name c : String}
    (h : classify_by_keywords name = some c) :
    c ∈ BUSINESS_KEYWORDS.map Prod.fst := by
  rw [classify_by_keywords] at h
  obtain ⟨p, hp, hfp⟩ := List.exists_of_findSome?_eq_some h
  split at hfp
  · cases hfp
    exact List.mem_map.mpr ⟨p, hp, rfl⟩
  · cases hfp

theorem create_business_mapping_entry {cids : List String}
    {fm : Option BusinessMapping} {uk : Bool}
    {e : String × String × Option String}
    (h : e ∈ create_business_mapping cids fm uk) :
    e ∈ fm.getD [] ∨ e.2.1 = "Other" ∨
      e.2.1 ∈ BUSINESS_KEYWORDS.map Prod.fst := by
  rcases mem_fillMissing h with h1 | h1
  · rcases uk with _ | _
    · simp only [Bool.false_eq_true, if_false] at h1
      exact Or.inl h1
    · simp only [if_true] at h1
      rcases mem_fillMissing h1 with h2 | h2
      · exact Or.inl h2
      · obtain ⟨cid, rfl⟩ := h2
        cases hcl : classify_by_keywords cid with
        | none => simp [hcl]
        | some c =>
            refine Or.inr (Or.inr ?_)
            simpa [hcl] using classify_by_keywords_mem hcl
  · obtain ⟨cid, rfl⟩ := h1
    exact Or.inr (Or.inl rfl)

/-- C2 counterexample: the round trip is quantified over every optional
mapping file, and a loaded mapping file may itself assign the literal
category Unknown; building the mapping over the customer set of a
one-row table whose only customer the file maps to Unknown, then
merging, yields a row whose business_category is Unknown. -/
theorem create_business_mapping_round_trip_cex :
    ¬ (∀ r ∈ merge_business_categories
          [{ customer_id := "C1", product_id := "P1",
             product_category := "Gifts", sales_amount := 5 }]
          (create_business_mapping ["C1"]
            (some [("C1", "Unknown", none)]) true),
        r.business_category ≠ "Unknown") := by
  decide

/-- C2 (amended): create_business_mapping returns a mapping with an
entry for every input customer id, for every optional file mapping and
either use_keywords setting; and whenever the supplied file mapping
never assigns the literal category Unknown (in particular when no file
is supplied), merging the built mapping onto a table whose customers
all come from the input list produces no row with business_category
Unknown: every customer gets at least Other. -/
theorem create_business_mapping_total_no_unknown
    (cids : List String) (fm : Option BusinessMapping) (uk : Bool)
    (df : List SalesRow) :
    (∀ cid ∈ cids,
        (alookup (create_business_mapping cids fm uk) cid).isSome) ∧
    ((∀ e ∈ fm.getD [], e.2.1 ≠ "Unknown") →
      (∀ r ∈ df, r.customer_id ∈ cids) →
      ∀ r ∈ merge_business_categories df (create_business_mapping cids fm uk),
        r.business_category ≠ "Unknown") := by
  have htotal : ∀ cid ∈ cids,
      (alookup (create_business_mapping cids fm uk) cid).isSome :=
    fun cid hc => alookup_fillMissing_self _ hc _
  refine ⟨htotal, ?_⟩
  intro hfm hdf r hr
  rw [merge_business_categories, List.mem_map] at hr
  obtain ⟨a, ha, rfl⟩ := hr
  have hsome := htotal a.customer_id (hdf a ha)
  cases hl : alookup (create_business_mapping cids fm uk) a.customer_id with
  | none => rw [hl] at hsome; cases hsome
  | some v =>
      have hmem := alookup_mem hl
      have hv := create_business_mapping_entry hmem
      simp only [hl, Option.getD_some]
      rcases hv with h1 | h1 | h1
      · exact hfm _ h1
      · have h2 : v.1 = "Other" := h1
        intro hcon
        rw [hcon] at h2
        exact absurd h2 (by decide)
      · have h2 : v.1 ∈ BUSINESS_KEYWORDS.map Prod.fst := h1
        intro hcon
        rw [hcon] at h2
        exact absurd h2 (by decide)

/-- Witness for the amended C2 at one customer mapped by a file to
Retail and one transaction row for that customer; both inner conditions
of the second conjunct are dischargeable there. -/
theorem create_business_mapping_total_no_unknown_witness :
    ((∀ cid ∈ ["C1"],
        (alookup (create_business_mapping ["C1"]
          (some [("C1", "Retail", some "Boutique")]) true) cid).isSome) ∧
    ((∀ e ∈ (some [("C1", "Retail", some "Boutique")] :
          Option BusinessMapping).getD [], e.2.1 ≠ "Unknown") →
      (∀ r ∈ [(⟨"C1", "P1", "Gifts", 5⟩ : SalesRow)],
          r.customer_id ∈ ["C1"]) →
      ∀ r ∈ merge_business_categories
          [{ customer_id := "C1", product_id := "P1",
             product_category := "Gifts", sales_amount := 5 }]
          (create_business_mapping ["C1"]
            (some [("C1", "Retail", some "Boutique")]) true),
        r.business_category ≠ "Unknown")) ∧
    (∀ e ∈ (some [("C1", "Retail", some "Boutique")] :
        Option BusinessMapping).getD [], e.2.1 ≠ "Unknown") ∧
    (∀ r ∈ [(⟨"C1", "P1", "Gifts", 5⟩ : SalesRow)],
        r.customer_id ∈ ["C1"]) :=
  ⟨create_business_mapping_total_no_unknown ["C1"]
    (some [("C1", "Retail", some "Boutique")]) true
    [{ customer_id := "C1", product_id := "P1",
       product_category := "Gifts", sales_amount := 5 }],
   by decide, by decide⟩

/-! ### Claim C4: the category matrix is a dense zero-filled pivot -/

theorem alookup_label_map {β : Type} (f : String → β) {l : List String}
    {bc : String} (h : bc ∈ l) :
    alookup (l.map fun b => (b, f b)) bc = some (f bc) := by
  induction l with
  | nil => cases h
  | cons hd tl ih =>
      simp only [List.map_cons, alookup]
      split
      · next heq => rw [heq]
      · next hne =>
          rcases List.mem_cons.mp h with h1 | h1
          · exact absurd h1.symm hne
          · exact ih h1

/-- The three-row scenario table of the specification. -/
def scenarioRows : List SalesRow :=
  [ { customer_id := "C1", product_id := "P1",
      product_category := "Gifts", sales_amount := 100 }
  , { customer_id := "C1", product_id := "P2",
      product_category := "Cards", sales_amount := 50 }
  , { customer_id := "C2", product_id := "P1",
      product_category := "Gifts", sales_amount := 200 } ]

/-- The scenario mapping: both customers are Retail with no
sub-category. -/
def scenarioMapping : BusinessMapping :=
  [("C1", "Retail", none), ("C2", "Retail", none)]

/-- C4: the category matrix is dense, holding for every business
category and product category observed anywhere in the input a cell
whose value is the summed sales_amount of the matching rows, zero when
no row matches; and on the three-row scenario with both customers
mapped to Retail, the cell at (Retail, Gifts) is 300 and the cell at
(Retail, Cards) is 50. -/
theorem calculate_category_matrix_dense (rows : List EnrichedRow)
    (bc pc : String)
    (hbc : bc ∈ rows.map (·.business_category))
    (hpc : pc ∈ rows.map (·.product_category)) :
    matrixCell (calculate_category_matrix rows) bc pc
        = some (cellSum rows bc pc) ∧
    (matrixCell (calculate_category_matrix
          (merge_business_categories scenarioRows scenarioMapping))
        "Retail" "Gifts" = some 300 ∧
      matrixCell (calculate_category_matrix
          (merge_business_categories scenarioRows scenarioMapping))
        "Retail" "Cards" = some 50) := by
  refine ⟨?_, by decide, by decide⟩
  simp only [calculate_category_matrix, matrixCell]
  rw [alookup_label_map _ (mem_uniqueFirst.mpr hbc)]
  simp only [Option.some_bind]
  exact alookup_label_map _ (mem_uniqueFirst.mpr hpc)

/-- Witness for C4 at the scenario table itself. -/
theorem calculate_category_matrix_dense_witness :
    (matrixCell (calculate_category_matrix
          (merge_business_categories scenarioRows scenarioMapping))
        "Retail" "Gifts"
      = some (cellSum
          (merge_business_categories scenarioRows scenarioMapping)
          "Retail" "Gifts")) ∧
    (matrixCell (calculate_category_matrix
          (merge_business_categories scenarioRows scenarioMapping))
        "Retail" "Gifts" = some 300 ∧
      matrixCell (calculate_category_matrix
          (merge_business_categories scenarioRows scenarioMapping))
        "Retail" "Cards" = some 50) :=
  calculate_category_matrix_dense
    (merge_business_categories scenarioRows scenarioMapping)
    "Retail" "Gifts" (by decide) (by decide)

/-! ### Claim C5: opportunity scores -/

theorem boughtCount_le_totalCount (rows : List EnrichedRow) (bc : String) :
    boughtCount rows bc ≤ totalCount rows := by
  simp only [boughtCount, totalCount, nunique]
  apply Finset.card_le_card
  intro x hx
  simp only [List.mem_toFinset, List.mem_map] at hx ⊢
  obtain ⟨a, ha, rfl⟩ := hx
  exact ⟨a, List.mem_of_mem_filter ha, rfl⟩

theorem boughtCount_pos {rows : List EnrichedRow} {bc : String}
    (h : bc ∈ rows.map (·.business_category)) : 0 < boughtCount rows bc := by
  obtain ⟨a, ha, rfl⟩ := List.mem_map.mp h
  simp only [boughtCount, nunique]
  apply Finset.card_pos.mpr
  refine ⟨a.product_category, ?_⟩
  simp only [List.mem_toFinset, List.mem_map]
  exact ⟨a, List.mem_filter.mpr ⟨ha, by simp⟩, rfl⟩

theorem mem_identify_opportunities {rows : List EnrichedRow} {r : OppRow} :
    r ∈ identify_opportunities rows ↔
      ∃ bc ∈ uniqueFirst (rows.map (·.business_category)),
        r = mkOppRow rows bc := by
  rw [identify_opportunities, (List.perm_insertionSort _ _).mem_iff,
    List.mem_map]
  constructor
  · rintro ⟨bc, hbc, rfl⟩
    exact ⟨bc, hbc, rfl⟩
  · rintro ⟨bc, hbc, rfl⟩
    exact ⟨bc, hbc, rfl⟩

/-- C5: on a non-empty enriched table, identify_opportunities gives
every output row the score (total distinct product categories minus the
distinct product categories bought by that business category) divided by
the total, a value between 0 and 1 that is 0 when the business category
buys every available product category; every observed business category
receives a row; and the output is sorted descending by score. -/
theorem identify_opportunities_spec (rows : List EnrichedRow)
    (hne : rows ≠ []) :
    (∀ r ∈ identify_opportunities rows,
        r.product_categories_bought = boughtCount rows r.business_category ∧
        r.total_product_categories = totalCount rows ∧
        r.opportunity_score =
          ((totalCount rows : ℚ) -
              (boughtCount rows r.business_category : ℚ)) /
            (totalCount rows : ℚ) ∧
        0 ≤ r.opportunity_score ∧ r.opportunity_score ≤ 1 ∧
        (boughtCount rows r.business_category = totalCount rows →
            r.opportunity_score = 0)) ∧
    (∀ bc ∈ rows.map (·.business_category),
        ∃ r ∈ identify_opportunities rows, r.business_category = bc) ∧
    (identify_opportunities rows).Pairwise
      (fun a b => b.opportunity_score ≤ a.opportunity_score) := by
  refine ⟨?_, ?_, ?_⟩
  · intro r hr
    obtain ⟨bc, hbc, rfl⟩ := mem_identify_opportunities.mp hr
    have hb1 : 0 < boughtCount rows bc :=
      boughtCount_pos (mem_uniqueFirst.mp hbc)
    have hb2 : boughtCount rows bc ≤ totalCount rows :=
      boughtCount_le_totalCount rows bc
    have ht : 0 < totalCount rows := lt_of_lt_of_le hb1 hb2
    have htq : (0 : ℚ) < (totalCount rows : ℚ) := by exact_mod_cast ht
    refine ⟨rfl, rfl, rfl, ?_, ?_, ?_⟩
    · exact div_nonneg (sub_nonneg.mpr (by exact_mod_cast hb2)) htq.le
    · refine (div_le_one htq).mpr ?_
      exact sub_le_self _ (by positivity)
    · intro heq
      have heq2 : boughtCount rows bc = totalCount rows := heq
      show ((totalCount rows : ℚ) - (boughtCount rows bc : ℚ)) /
          (totalCount rows : ℚ) = 0
      rw [heq2, sub_self, zero_div]
  · intro bc hbc
    exact ⟨mkOppRow rows bc,
      mem_identify_opportunities.mpr ⟨bc, mem_uniqueFirst.mpr hbc, rfl⟩, rfl⟩
  · haveI : IsTotal OppRow
        (fun a b => b.opportunity_score ≤ a.opportunity_score) :=
      ⟨fun a b => le_total b.opportunity_score a.opportunity_score⟩
    haveI : IsTrans OppRow
        (fun a b => b.opportunity_score ≤ a.opportunity_score) :=
      ⟨fun _ _ _ h1 h2 => le_trans h2 h1⟩
    exact List.sorted_insertionSort _ _

/-- Witness for C5 at the enriched scenario table. -/
theorem identify_opportunities_spec_witness :
    ((∀ r ∈ identify_opportunities
          (merge_business_categories scenarioRows scenarioMapping),
        r.product_categories_bought =
          boughtCount (merge_business_categories scenarioRows scenarioMapping)
            r.business_category ∧
        r.total_product_categories =
          totalCount (merge_business_categories scenarioRows scenarioMapping) ∧
        r.opportunity_score =
          ((totalCount (merge_business_categories scenarioRows
              scenarioMapping) : ℚ) -
              (boughtCount (merge_business_categories scenarioRows
                scenarioMapping) r.business_category : ℚ)) /
            (totalCount (merge_business_categories scenarioRows
              scenarioMapping) : ℚ) ∧
        0 ≤ r.opportunity_score ∧ r.opportunity_score ≤ 1 ∧
        (boughtCount (merge_business_categories scenarioRows scenarioMapping)
              r.business_category =
            totalCount (merge_business_categories scenarioRows
              scenarioMapping) →
            r.opportunity_score = 0)) ∧
    (∀ bc ∈ (merge_business_categories scenarioRows scenarioMapping).map
        (·.business_category),
        ∃ r ∈ identify_opportunities
            (merge_business_categories scenarioRows scenarioMapping),
          r.business_category = bc) ∧
    (identify_opportunities
        (merge_business_categories scenarioRows scenarioMapping)).Pairwise
      (fun a b => b.opportunity_score ≤ a.opportunity_score)) :=
  identify_opportunities_spec
    (merge_business_categories scenarioRows scenarioMapping) (by decide)

/-! ### Claims C6 and C7: brand matching scores and ranking -/

theorem mem_find_businesses_for_brand {t : BTable} {brand : List BrandProduct}
    {bcs : Option (List String)} {lf : Option String} {ms : ℚ} {m : MatchRow}
    (h : m ∈ find_businesses_for_brand t brand bcs lf ms) :
    ms ≤ m.match_score ∧
      ∃ cid ∈ uniqueFirst ((brandFilteredRows t bcs lf).map (·.customer_id)),
        m = mkMatchRow (brandFilteredRows t bcs lf)
          (brandCategories brand) cid := by
  simp only [find_businesses_for_brand] at h
  have h2 := (List.perm_insertionSort _ _).mem_iff.mp h
  rw [List.mem_filter] at h2
  obtain ⟨hmem, hp⟩ := h2
  refine ⟨of_decide_eq_true hp, ?_⟩
  obtain ⟨cid, hcid, rfl⟩ := List.mem_map.mp hmem
  exact ⟨cid, hcid, rfl⟩

/-- The two-row scenario customer of the specification: C1 buys Gifts
and Cards. -/
def brandScenarioTable : BTable :=
  { rows :=
      [ { customer_id := "C1", product_category := "Gifts",
          sales_amount := 100, business_category := "Retail",
          state := none, location := none }
      , { customer_id := "C1", product_category := "Cards",
          sales_amount := 50, business_category := "Retail",
          state := none, location := none } ]
    hasState := false
    hasLocation := false }

/-- The scenario brand catalog, whose only category is Gifts. -/
def brandScenarioCatalog : List BrandProduct := [⟨"Gifts"⟩]

/-- C6: every row returned by find_businesses_for_brand carries
category_overlap equal to the size of the intersection of the distinct
product categories of the customer with the distinct categories of the
brand catalog, match_score equal to that overlap divided by the larger
of the two category counts, and a match_score at least min_match_score;
on the scenario of a customer buying Gifts and Cards against a brand
whose only category is Gifts, the single result has overlap 1 and
match_score one half. -/
theorem find_businesses_for_brand_scores (t : BTable)
    (brand : List BrandProduct) (bcs : Option (List String))
    (lf : Option String) (ms : ℚ) (m : MatchRow)
    (h : m ∈ find_businesses_for_brand t brand bcs lf ms) :
    (m.category_overlap =
        (customerCategorySet (brandFilteredRows t bcs lf) m.customer_id ∩
            (brandCategories brand).toFinset).card ∧
      m.match_score = (m.category_overlap : ℚ) /
          ((max (customerCategorySet (brandFilteredRows t bcs lf)
                m.customer_id).card
              (brandCategories brand).toFinset.card : ℕ) : ℚ) ∧
      ms ≤ m.match_score) ∧
    ((find_businesses_for_brand brandScenarioTable brandScenarioCatalog
          none none (1/2)).map
        (fun x => (x.category_overlap, x.match_score))
      = [(1, 1/2)]) := by
  obtain ⟨hms, cid, hcid, rfl⟩ := mem_find_businesses_for_brand h
  refine ⟨⟨rfl, ?_, hms⟩, by decide⟩
  simp only [mkMatchRow]
  by_cases hc :
      0 < (customerCategorySet (brandFilteredRows t bcs lf) cid).card
  · rw [if_pos hc, Nat.cast_max]
  · rw [if_neg hc]
    have hc0 : (customerCategorySet (brandFilteredRows t bcs lf) cid).card
        = 0 := Nat.eq_zero_of_not_pos hc
    have hov : (customerCategorySet (brandFilteredRows t bcs lf) cid ∩
        (brandCategories brand).toFinset).card = 0 := by
      refine Nat.le_zero.mp ?_
      calc (customerCategorySet (brandFilteredRows t bcs lf) cid ∩
              (brandCategories brand).toFinset).card
          ≤ (customerCategorySet (brandFilteredRows t bcs lf) cid).card :=
            Finset.card_le_card Finset.inter_subset_left
        _ = 0 := hc0
    rw [hov]
    simp

/-- The match record of the scenario customer. -/
def brandScenarioRow : MatchRow :=
  mkMatchRow (brandFilteredRows brandScenarioTable none none)
    (brandCategories brandScenarioCatalog) "C1"

/-- Witness for C6 at the scenario table, catalog and threshold. -/
theorem find_businesses_for_brand_scores_witness :
    (brandScenarioRow.category_overlap =
        (customerCategorySet (brandFilteredRows brandScenarioTable none none)
            brandScenarioRow.customer_id ∩
          (brandCategories brandScenarioCatalog).toFinset).card ∧
      brandScenarioRow.match_score =
        (brandScenarioRow.category_overlap : ℚ) /
          ((max (customerCategorySet
                (brandFilteredRows brandScenarioTable none none)
                brandScenarioRow.customer_id).card
              (brandCategories brandScenarioCatalog).toFinset.card : ℕ) : ℚ) ∧
      (1 : ℚ)/2 ≤ brandScenarioRow.match_score) ∧
    ((find_businesses_for_brand brandScenarioTable brandScenarioCatalog
          none none (1/2)).map
        (fun x => (x.category_overlap, x.match_score))
      = [(1, 1/2)]) :=
  find_businesses_for_brand_scores brandScenarioTable brandScenarioCatalog
    none none (1/2) brandScenarioRow (by decide)

theorem map_customer_id_mkMatchRow (fr : List BRow)
    (cats : List String) (l : List String) :
    ((l.map (mkMatchRow fr cats)).map fun m => m.customer_id) = l := by
  induction l with
  | nil => rfl
  | cons hd tl ih =>
      simp only [List.map_cons]
      rw [ih]
      rfl

/-- C7: every row of find_businesses_for_brand scores the count of the
distinct product categories of the customer when the customer already
buys at least one brand category (positive overlap), and that count plus
10 otherwise; the rows carry pairwise distinct customer ids, each
customer keeping its single first-built row; and the result is sorted
ascending by opportunity_score. -/
theorem find_businesses_for_brand_ranking (t : BTable)
    (brand : List BrandProduct) (bcs : Option (List String))
    (lf : Option String) (ms : ℚ) :
    (∀ m ∈ find_businesses_for_brand t brand bcs lf ms,
        m.opportunity_score =
          if 0 < m.category_overlap then
            (customerCategorySet (brandFilteredRows t bcs lf)
              m.customer_id).card
          else
            (customerCategorySet (brandFilteredRows t bcs lf)
              m.customer_id).card + 10) ∧
    ((find_businesses_for_brand t brand bcs lf ms).map
        (·.customer_id)).Nodup ∧
    (find_businesses_for_brand t brand bcs lf ms).Pairwise
      (fun a b => a.opportunity_score ≤ b.opportunity_score) := by
  refine ⟨?_, ?_, ?_⟩
  · intro m hm
    obtain ⟨-, cid, hcid, rfl⟩ := mem_find_businesses_for_brand hm
    rfl
  · simp only [find_businesses_for_brand]
    refine (((List.perm_insertionSort _ _).map
      (fun m : MatchRow => m.customer_id)).nodup_iff).mpr ?_
    rw [List.filter_map, map_customer_id_mkMatchRow]
    exact (nodup_uniqueFirst _).filter _
  · haveI : IsTotal MatchRow
        (fun a b => a.opportunity_score ≤ b.opportunity_score) :=
      ⟨fun a b => le_total a.opportunity_score b.opportunity_score⟩
    haveI : IsTrans MatchRow
        (fun a b => a.opportunity_score ≤ b.opportunity_score) :=
      ⟨fun _ _ _ h1 h2 => le_trans h1 h2⟩
    exact List.sorted_insertionSort _ _

/-! ### Claim C8: the date format loop destroys the original column -/

/-- C8 evidence: the value 01/02/2020 matches the second configured
format, so by the specified behavior the column should parse; but the
first format attempt reassigns the whole column to missing values, every
later format and the fallback operate on the already coerced column, and
the value comes out unknown.  A column in the first format still parses,
showing the loop only ever honors its first format. -/
theorem parse_dates_first_format_bug :
    parse_dates ["01/02/2020"] = [none] ∧
      strptime "%m/%d/%Y" "01/02/2020" = some ⟨2020, 1, 2, 0, 0, 0⟩ ∧
      "%m/%d/%Y" ∈ DATE_FORMATS ∧
      parse_dates ["2020-01-02"] = [some ⟨2020, 1, 2, 0, 0, 0⟩] := by
  refine ⟨by decide, by decide, by decide, by decide⟩

/-! ### Claim C9: the radius argument is never read -/

/-- C9: two calls of find_similar_businesses_by_location that differ
only in radius_miles return identical results, for every table and
every other argument: the radius is accepted and never read, the
matching being substring and state-token based only. -/
theorem find_similar_businesses_radius_independent (t : LTable)
    (business_category product_category location : String)
    (r1 r2 n : ℕ) :
    find_similar_businesses_by_location t business_category
        product_category location r1 n =
      find_similar_businesses_by_location t business_category
        product_category location r2 n := rfl

end SalesAnalytics
